import Mathlib

/-!
# LingoLoop — verification of the segment/loop-playback core

A shallow embedding of the LingoLoop sources (`src/components/MediaPlayer.tsx`,
`src/components/TextEditor.tsx`, `src/components/Sidebar.tsx` (constants part),
`src/services/storageService.ts`, `src/services/mediaStorageService.ts`, and the
player page), together with theorems about the embedded definitions.

Modelling conventions:
* JS numbers (times in seconds) are embedded as exact rationals `ℚ`;
  IEEE-754 rounding is outside the model.
* Strings are Lean `String`s; the character-level scanning that the source
  does with regular expressions is embedded as explicit recursive functions
  on `List Char`.
* `generateId()` draws a random opaque id in the source; it is modelled as a
  deterministic id supply indexed by creation order (ids are only ever
  compared for equality).
* Asynchronous effects (the `setTimeout` loop delay, IndexedDB deletion) are
  modelled as explicit state: a pending-timer component of the engine state,
  and an outcome parameter plus an event log for the storage layer.
-/

/-- Segment record, from `types.ts` (`Sentence`): a timed span of text. -/
structure Sentence where
  id : String
  text : String
  startTime : ℚ
  endTime : ℚ
  loopCount : ℕ
deriving DecidableEq

/-- Default value used only to totalise list indexing (JS `xs[i]` on a
checked-in-range index). -/
def dummySentence : Sentence :=
  { id := "", text := "", startTime := 0, endTime := 0, loopCount := 0 }

/-- Deterministic stand-in for `generateId()` (a random opaque 7-char string
in `constants.ts`); ids are opaque and only compared for equality. -/
def genId (k : ℕ) : String := "seg" ++ Nat.repr k

/-- `content.split('\n')` at the character level (single-character separator,
keeping empty pieces, as JS `String.prototype.split` does). -/
def splitChar (sep : Char) : List Char → List (List Char)
  | [] => [[]]
  | c :: rest =>
    let r := splitChar sep rest
    if c = sep then [] :: r
    else
      match r with
      | [] => [[c]]
      | h :: t => (c :: h) :: t

/-- JS `String.prototype.trim`: drop whitespace from both ends. -/
def trimL (cs : List Char) : List Char :=
  ((cs.dropWhile Char.isWhitespace).reverse.dropWhile Char.isWhitespace).reverse

/-- Value of a (non-empty) run of decimal digits, as read left to right. -/
def digitsToNat (ds : List Char) : ℕ :=
  ds.foldl (fun a c => 10 * a + (c.toNat - '0'.toNat)) 0

/-- Parse the regex fragment `\d+(?:\.\d+)?` at the head of `cs`, returning the
exact decimal value (JS `parseFloat` of the matched text) and the rest.
Returns `none` exactly when the whole-line marker match of
`parseTxtContent` would fail at this position: either no leading digit, or a
`'.'` directly after the integer digits that is not followed by a digit (in
that case the regex drops the optional fraction group and the very next
literal of the pattern — `-` or `]` — fails on the `'.'`). -/
def parseNum (cs : List Char) : Option (ℚ × List Char) :=
  let ds := cs.takeWhile Char.isDigit
  let r1 := cs.dropWhile Char.isDigit
  if ds.isEmpty then none
  else
    match r1 with
    | '.' :: r2 =>
      let fs := r2.takeWhile Char.isDigit
      let r3 := r2.dropWhile Char.isDigit
      if fs.isEmpty then none
      else some ((digitsToNat ds : ℚ) + (digitsToNat fs : ℚ) / (10 : ℚ) ^ fs.length, r3)
    | _ => some ((digitsToNat ds : ℚ), r1)

/-- The marker regex of `parseTxtContent` (`constants.ts`):
`^\[(\d+(?:\.\d+)?)-(\d+(?:\.\d+)?)\]\s*(.*)$`, applied to a trimmed line.
Returns the two parsed times and the text after the bracket (with the
leading whitespace that `\s*` swallows removed). -/
def matchMarker (cs : List Char) : Option (ℚ × ℚ × List Char) :=
  match cs with
  | '[' :: rest =>
    match parseNum rest with
    | some (s, r1) =>
      match r1 with
      | '-' :: r2 =>
        match parseNum r2 with
        | some (e, r3) =>
          match r3 with
          | ']' :: r4 => some (s, e, r4.dropWhile Char.isWhitespace)
          | _ => none
        | none => none
      | _ => none
    | none => none
  | _ => none

/-- `Math.max(2, Math.min(10, trimmed.length * 0.1))` from `parseTxtContent`:
the synthesized duration for a heuristic line of `n` characters. -/
def jsClampDuration (n : ℕ) : ℚ := max 2 (min 10 ((n : ℚ) * (1 / 10)))

/-- JS `Number(x.toFixed(2))` for `x ≥ 0` (the only inputs the source feeds
it): round to the nearest hundredth, ties to the larger value. -/
def toFixed2 (x : ℚ) : ℚ := ((⌊x * 100 + 1 / 2⌋ : ℤ) : ℚ) / 100

/-- The `lines.forEach` loop of `parseTxtContent`, with the running
`currentTime` accumulator and the id supply made explicit. -/
def parseTxtLoop : List (List Char) → ℚ → ℕ → List Sentence
  | [], _, _ => []
  | line :: rest, currentTime, k =>
    let trimmed := trimL line
    match matchMarker trimmed with
    | some (s, e, tx) =>
      { id := genId k, text := String.mk tx, startTime := s, endTime := e,
        loopCount := 1 } :: parseTxtLoop rest e (k + 1)
    | none =>
      let dur := jsClampDuration trimmed.length
      let s := toFixed2 currentTime
      let e := toFixed2 (currentTime + dur)
      { id := genId k, text := String.mk trimmed, startTime := s, endTime := e,
        loopCount := 1 } :: parseTxtLoop rest e (k + 1)

/-- `content.split('\n').filter(l => l.trim().length > 0)`. -/
def txtLines (content : String) : List (List Char) :=
  (splitChar '\n' content.data).filter (fun l => 0 < (trimL l).length)

/-- `parseTxtContent` from `constants.ts`: plain-text import, bracketed lines
parsed directly, other lines given a synthesized range. -/
def parseTxtContent (content : String) : List Sentence :=
  parseTxtLoop (txtLines content) 0 0

/-- Whether a raw line would hit the explicit-marker branch of
`parseTxtContent`. -/
def isBracketed (line : List Char) : Bool := (matchMarker (trimL line)).isSome

/-! ## Subtitle-format import (`TextEditor.processContent`, SRT branch) -/

/-- `parseSrtTime` from `constants.ts`: `"HH:MM:SS,mmm"` to seconds.
`Number`/`parseInt` are modelled on the digit-only strings that the cue
regex guarantees (`\d{2}` / `\d{3}`); `NaN` on other inputs is outside the
model. -/
def parseSrtTime (timeString : String) : ℚ :=
  let parts := splitChar ',' timeString.data
  let time := parts.getD 0 []
  let msPart := parts.getD 1 []
  let nums := (splitChar ':' time).map (fun cs => (digitsToNat cs : ℚ))
  let h := nums.getD 0 0
  let m := nums.getD 1 0
  let s := nums.getD 2 0
  h * 3600 + m * 60 + s + (digitsToNat (msPart.takeWhile Char.isDigit) : ℚ) / 1000

/-- One successful match of the cue regex
`(\d+)\n(\d{2}:\d{2}:\d{2},\d{3}) --> (\d{2}:\d{2}:\d{2},\d{3})\n([\s\S]*?)(?=\n\n|\n*$)`
(groups 1-4). The `while (regex.exec(...))` loop itself is treated as an
oracle producing the list of matches; the per-cue conversion is embedded
from the source. -/
structure SrtMatch where
  index : String
  startRaw : String
  endRaw : String
  body : String
deriving DecidableEq

/-- The `newSentences.push({...})` body of the SRT branch of
`TextEditor.processContent` for one cue (multi-line text joined with
spaces by `replace(/\n/g, ' ')`). -/
def srtSentenceOfMatch (k : ℕ) (m : SrtMatch) : Sentence :=
  { id := genId k,
    text := String.mk (m.body.data.map (fun c => if c = '\n' then ' ' else c)),
    startTime := parseSrtTime m.startRaw,
    endTime := parseSrtTime m.endRaw,
    loopCount := 1 }

/-- All sentences produced by the SRT `while`-loop, given the matches. -/
def srtSentencesFromMatches (ms : List SrtMatch) : List Sentence :=
  ms.enum.map (fun p => srtSentenceOfMatch p.1 p.2)

/-- `TextEditor.processContent`: SRT parsing when `isSrt`, otherwise
`parseTxtContent`. The regex engine is the `srtMatchesOf` oracle. -/
def processContent (isSrt : Bool) (content : String)
    (srtMatchesOf : String → List SrtMatch) : List Sentence :=
  if isSrt then srtSentencesFromMatches (srtMatchesOf content)
  else parseTxtContent content

/-- The inline `parseTime` of `PlayerPage.handleTranscribe` (a verbatim
duplicate of `parseSrtTime` in the source). -/
def transcribeParseTime (str : String) : ℚ :=
  let parts := splitChar ',' str.data
  let t := parts.getD 0 []
  let msPart := parts.getD 1 []
  let nums := (splitChar ':' t).map (fun cs => (digitsToNat cs : ℚ))
  let h := nums.getD 0 0
  let m := nums.getD 1 0
  let s := nums.getD 2 0
  h * 3600 + m * 60 + s + (digitsToNat (msPart.takeWhile Char.isDigit) : ℚ) / 1000

/-- The `newSentences.push({...})` body of `PlayerPage.handleTranscribe`
for one cue of the AI transcript. -/
def transcribeSentenceOfMatch (k : ℕ) (m : SrtMatch) : Sentence :=
  { id := genId k,
    text := String.mk (m.body.data.map (fun c => if c = '\n' then ' ' else c)),
    startTime := transcribeParseTime m.startRaw,
    endTime := transcribeParseTime m.endRaw,
    loopCount := 1 }

/-- All sentences produced by the transcription `while`-loop. -/
def transcribeSentencesFromMatches (ms : List SrtMatch) : List Sentence :=
  ms.enum.map (fun p => transcribeSentenceOfMatch p.1 p.2)

/-! ## Time formatter (`formatTime` in `constants.ts`) -/

/-- JS truncating integer part (`%` on JS numbers truncates toward zero). -/
def jsTrunc (x : ℚ) : ℤ := if 0 ≤ x then ⌊x⌋ else -⌊-x⌋

/-- The JS remainder operator `a % b`. -/
def jsMod (a b : ℚ) : ℚ := a - b * (jsTrunc (a / b) : ℚ)

/-- JS `str.padStart(2, '0')`. -/
def padStart2 (s : String) : String :=
  if s.length < 2 then String.mk (List.replicate (2 - s.length) '0' ++ s.data) else s

/-- `formatTime` from `constants.ts`: `H:MM:SS.mm` when hours > 0, else
`MM:SS.mm`, centisecond precision. -/
def formatTime (seconds : ℚ) : String :=
  let h : ℤ := ⌊seconds / 3600⌋
  let m : ℤ := ⌊jsMod seconds 3600 / 60⌋
  let s : ℤ := ⌊jsMod seconds 60⌋
  let ms : ℤ := ⌊jsMod seconds 1 * 100⌋
  let mStr := padStart2 (toString m)
  let sStr := padStart2 (toString s)
  let msStr := padStart2 (toString ms)
  if 0 < h then toString h ++ ":" ++ mStr ++ ":" ++ sStr ++ "." ++ msStr
  else mStr ++ ":" ++ sStr ++ "." ++ msStr

/-- Spec-side two-digit zero padding of a natural number (used to state what
"zero-padded two-digit" means independently of `padStart2`). -/
def pad2N (n : ℕ) : String :=
  if n < 10 then "0" ++ Nat.repr n else Nat.repr n

/-- Spec-side characterization of the claimed output shape: hours, minutes,
seconds, centiseconds computed by plain natural division/remainder, glued as
`H:MM:SS.mm` when the hour component is positive and `MM:SS.mm` otherwise. -/
def ClockFormat (q : ℚ) : Prop :=
  formatTime q =
    (if 0 < ⌊q⌋₊ / 3600 then
      Nat.repr (⌊q⌋₊ / 3600) ++ ":" ++ pad2N (⌊q⌋₊ % 3600 / 60) ++ ":" ++
        pad2N (⌊q⌋₊ % 60) ++ "." ++ pad2N (⌊q * 100⌋₊ % 100)
    else
      pad2N (⌊q⌋₊ % 3600 / 60) ++ ":" ++ pad2N (⌊q⌋₊ % 60) ++ "." ++
        pad2N (⌊q * 100⌋₊ % 100))

/-! ## Metadata persistence (`storageService.ts`) and the binary store -/

/-- `Project.mediaType` enum from `types.ts`. -/
inductive MediaType where
  | video
  | audio
  | none
deriving DecidableEq

/-- Group record from `types.ts` (`ProjectGroup`). -/
structure ProjectGroup where
  id : String
  name : String
  createdAt : ℤ
deriving DecidableEq

/-- Project record from `types.ts`. The source field `splitRatio` is named
`splitRatioPct` here for purely lexical reasons. -/
structure Project where
  id : String
  groupId : Option String
  name : String
  createdAt : ℤ
  lastAccessedAt : ℤ
  mediaType : MediaType
  mediaName : String
  mediaUrl : Option String
  textUrl : Option String
  sentences : List Sentence
  lastActiveIndex : ℤ
  splitRatioPct : ℚ
  fontSize : ℕ
  currentTime : ℚ
deriving DecidableEq

/-- `deleteGroup` from `storageService.ts`, as a pure function of the two
collections it read-modify-writes: drop the group record, and map every
project of that group to the same project with `groupId: undefined`. -/
def deleteGroup (groupId : String) (groups : List ProjectGroup)
    (projects : List Project) : List ProjectGroup × List Project :=
  (groups.filter (fun g => g.id != groupId),
   projects.map (fun p =>
     if p.groupId = some groupId then { p with groupId := Option.none } else p))

/-- Possible outcomes of one `deleteMediaFromDB` call: everything worked,
`initDB` threw (caught and logged inside `deleteMediaFromDB` itself), or the
IndexedDB transaction errored (the returned promise rejects). -/
inductive MediaDbOutcome where
  | ok
  | initFail
  | txFail
deriving DecidableEq

/-- Observable storage events of `deleteProjectFromStorage`, in order. -/
inductive StorageEv where
  | metaWrite (projects : List Project)
  | mediaDeleteAttempt (projectId : String)
  | warn
deriving DecidableEq

/-- `deleteMediaFromDB` from `mediaStorageService.ts`, over an explicit blob
store (the list of keys present) and an outcome of the async machinery:
`initFail` is swallowed by its own `try/catch` (store untouched, resolved),
`txFail` surfaces as a rejected promise (`Except.error`). -/
def deleteMediaFromDB (projectId : String) (outcome : MediaDbOutcome)
    (media : List String) : Except Unit (List String) :=
  match outcome with
  | .ok => .ok (media.filter (fun k => k != projectId))
  | .initFail => .ok media
  | .txFail => .error ()

/-- `deleteProjectFromStorage` from `storageService.ts`: filter the project
out of the collection and save it, then best-effort delete the binary
payload, logging (not rethrowing) a failure. Returns the new collection, the
new blob store, and the event log. -/
def deleteProjectFromStorage (projectId : String) (outcome : MediaDbOutcome)
    (projects : List Project) (media : List String) :
    List Project × List String × List StorageEv :=
  let newProjects := projects.filter (fun p => p.id != projectId)
  match deleteMediaFromDB projectId outcome media with
  | .ok m2 =>
    (newProjects, m2, [.metaWrite newProjects, .mediaDeleteAttempt projectId])
  | .error _ =>
    (newProjects, media,
     [.metaWrite newProjects, .mediaDeleteAttempt projectId, .warn])

/-! ## Loop playback engine (`MediaPlayer.tsx` + `PlayerPage` handlers) -/

/-- Process-wide playback settings from `types.ts`. -/
structure PlaybackSettings where
  loopCountOption : ℤ
  loopDelay : ℚ
  playbackRate : ℚ
  autoPlayNext : Bool
deriving DecidableEq

/-- Combined engine-observable state: the segment sequence and selection of
`PlayerPage`, the loop state of `MediaPlayer`, the transport (paused flag and
position), and the pending `setTimeout` of the loop delay (the sentence the
callback closed over, and the scheduled delay in seconds). -/
structure EngineState where
  sentences : List Sentence
  currentSentenceId : Option String
  currentLoop : ℕ
  isDelaying : Bool
  paused : Bool
  position : ℚ
  pendingTimer : Option (Sentence × ℚ)
deriving DecidableEq

/-- `PlayerPage`: `sentences.find(s => s.id === currentSentenceId) || null`. -/
def activeSentence (st : EngineState) : Option Sentence :=
  match st.currentSentenceId with
  | Option.none => Option.none
  | some cid => st.sentences.find? (fun s => s.id == cid)

/-- The `MediaPlayer` effect keyed on the active sentence: reset the loop
counter and the delay flag, and re-clamp the transport into the new range
when auto-playing while not paused. It does **not** cancel a pending
timer. -/
def sentenceChangeEffect (autoPlayNext : Bool) (st : EngineState) : EngineState :=
  let st1 := { st with currentLoop := 0, isDelaying := false }
  match activeSentence st1 with
  | some cs =>
    if autoPlayNext ∧ ¬st1.paused ∧
        (st1.position < cs.startTime ∨ cs.endTime < st1.position) then
      { st1 with position := cs.startTime }
    else st1
  | Option.none => st1

/-- `PlayerPage.handleSentenceClick`: select the sentence, seek the transport
to its `startTime`, start playback; when the selection actually changed, the
`MediaPlayer` sentence-change effect then runs. -/
def handleSentenceClick (settings : PlaybackSettings) (st : EngineState)
    (s : Sentence) : EngineState :=
  let st1 := { st with currentSentenceId := some s.id, position := s.startTime,
                       paused := false }
  if st.currentSentenceId = some s.id then st1
  else sentenceChangeEffect settings.autoPlayNext st1

/-- JS `findIndex` (−1 when absent). -/
def findIdxJs (sentences : List Sentence) (cid : Option String) : ℤ :=
  match sentences.findIdx? (fun s => some s.id == cid) with
  | some i => (i : ℤ)
  | Option.none => -1

/-- `PlayerPage.handleNext`: advance to the following sentence when one
exists, otherwise do nothing. -/
def handleNext (settings : PlaybackSettings) (st : EngineState) : EngineState :=
  let idx := findIdxJs st.sentences st.currentSentenceId
  if idx < (st.sentences.length : ℤ) - 1 then
    handleSentenceClick settings st (st.sentences.getD (idx + 1).toNat dummySentence)
  else st

/-- The loop-budget guard `currentLoop < maxLoops - 1` of
`MediaPlayer.handleTimeUpdate`, with `maxLoops = ∞` when the option is the
sentinel `-1`. -/
def LoopBudgetRemains (settings : PlaybackSettings) (currentLoop : ℕ) : Prop :=
  settings.loopCountOption = -1 ∨ (currentLoop : ℤ) < settings.loopCountOption - 1

instance (settings : PlaybackSettings) (n : ℕ) :
    Decidable (LoopBudgetRemains settings n) := by
  unfold LoopBudgetRemains
  infer_instance

/-- `MediaPlayer.handleTimeUpdate`, fired with the transport at position `t`:
defensive pause when no sentence is active; otherwise, on a boundary
crossing while not delaying, either schedule the loop timer (budget
remaining) or take the terminal branch. In the terminal branch the source
guards on `typeof hasNext !== 'undefined' ? hasNext : true`, and `hasNext`
is not declared anywhere, so `hasNextSentence` is the constant `true`. -/
def handleTimeUpdate (settings : PlaybackSettings) (st0 : EngineState)
    (t : ℚ) : EngineState :=
  let st := { st0 with position := t }
  match activeSentence st with
  | Option.none => { st with paused := true }
  | some cs =>
    if ¬st.isDelaying ∧ cs.endTime ≤ t then
      if LoopBudgetRemains settings st.currentLoop then
        { st with paused := true, isDelaying := true,
                  pendingTimer := some (cs, settings.loopDelay) }
      else
        let hasNextSentence := true
        if settings.autoPlayNext && hasNextSentence then
          { (handleNext settings st) with currentLoop := 0 }
        else
          { st with paused := true, position := cs.startTime, currentLoop := 0 }
    else st

/-- The `setTimeout` callback of the loop branch firing: seek the transport
to the `startTime` of the sentence the callback closed over, resume
playback, bump the loop counter, clear the delay flag. The source never
calls `clearTimeout`, so this fires regardless of what became active in the
meantime. -/
def timerFire (st : EngineState) : EngineState :=
  match st.pendingTimer with
  | Option.none => st
  | some (s, _) =>
    { st with position := s.startTime, paused := false,
              currentLoop := st.currentLoop + 1, isDelaying := false,
              pendingTimer := Option.none }

/-- `x` is a whole number of hundredths (the image of `toFixed2`). -/
def Centi (x : ℚ) : Prop := ∃ k : ℤ, x * 100 = (k : ℚ)

/-! ## Helper lemmas: lists -/

theorem getD_eq_headD_drop {α : Type} : ∀ (xs : List α) (i : ℕ) (d : α),
    xs.getD i d = (xs.drop i).headD d
  | [], 0, _ => rfl
  | [], _ + 1, _ => rfl
  | _ :: _, 0, _ => rfl
  | _ :: xs, i + 1, d => getD_eq_headD_drop xs i d

theorem drop_eq_getD_cons {α : Type} : ∀ (xs : List α) (i : ℕ) (d : α),
    i < xs.length → xs.drop i = xs.getD i d :: xs.drop (i + 1)
  | _ :: _, 0, _, _ => rfl
  | x :: xs, i + 1, d, h => by
    simpa using drop_eq_getD_cons xs i d (by simpa using h)

/-! ## Helper lemmas: hundredth-rounding -/

theorem centi_two : Centi 2 := ⟨200, by norm_num⟩

theorem centi_ten : Centi 10 := ⟨1000, by norm_num⟩

theorem centi_tenth_mul (n : ℕ) : Centi ((n : ℚ) * (1 / 10)) :=
  ⟨10 * n, by push_cast; ring⟩

theorem centi_min {a b : ℚ} (ha : Centi a) (hb : Centi b) : Centi (min a b) := by
  rcases le_total a b with h | h
  · rwa [min_eq_left h]
  · rwa [min_eq_right h]

theorem centi_max {a b : ℚ} (ha : Centi a) (hb : Centi b) : Centi (max a b) := by
  rcases le_total a b with h | h
  · rwa [max_eq_right h]
  · rwa [max_eq_left h]

theorem centi_jsClampDuration (n : ℕ) : Centi (jsClampDuration n) :=
  centi_max centi_two (centi_min centi_ten (centi_tenth_mul n))

theorem centi_toFixed2 (x : ℚ) : Centi (toFixed2 x) :=
  ⟨⌊x * 100 + 1 / 2⌋, by unfold toFixed2; field_simp⟩

theorem toFixed2_eq_self {x : ℚ} (hx : Centi x) : toFixed2 x = x := by
  obtain ⟨k, hk⟩ := hx
  unfold toFixed2
  rw [show x * 100 + 1 / 2 = 1 / 2 + (k : ℚ) by rw [← hk]; ring, Int.floor_add_int,
    show ⌊(1 : ℚ) / 2⌋ = 0 by norm_num [Int.floor_eq_iff]]
  push_cast
  linarith

theorem toFixed2_add_centi (c : ℚ) {d : ℚ} (hd : Centi d) :
    toFixed2 (c + d) = toFixed2 c + d := by
  obtain ⟨k, hk⟩ := hd
  unfold toFixed2
  rw [show (c + d) * 100 + 1 / 2 = (c * 100 + 1 / 2) + (k : ℚ) by rw [← hk]; ring,
    Int.floor_add_int]
  push_cast
  have hdk : d = (k : ℚ) / 100 := by
    field_simp
    linarith
  rw [hdk]
  ring

theorem toFixed2_zero : toFixed2 0 = 0 :=
  toFixed2_eq_self ⟨0, by norm_num⟩

theorem jsClampDuration_ge_two (n : ℕ) : 2 ≤ jsClampDuration n :=
  le_max_left _ _

theorem jsClampDuration_le_ten (n : ℕ) : jsClampDuration n ≤ 10 :=
  max_le (by norm_num) (min_le_left _ _)

/-! ## Helper lemmas: structure of `parseTxtLoop` -/

theorem parseTxtLoop_cons_br {l : List Char} {s e : ℚ} {tx : List Char}
    (rest : List (List Char)) (c : ℚ) (k : ℕ)
    (h : matchMarker (trimL l) = some (s, e, tx)) :
    parseTxtLoop (l :: rest) c k =
      { id := genId k, text := String.mk tx, startTime := s, endTime := e,
        loopCount := 1 } :: parseTxtLoop rest e (k + 1) := by
  simp only [parseTxtLoop, h]

theorem parseTxtLoop_cons_heur {l : List Char} (rest : List (List Char))
    (c : ℚ) (k : ℕ) (h : matchMarker (trimL l) = none) :
    parseTxtLoop (l :: rest) c k =
      { id := genId k, text := String.mk (trimL l), startTime := toFixed2 c,
        endTime := toFixed2 (c + jsClampDuration (trimL l).length),
        loopCount := 1 }
        :: parseTxtLoop rest (toFixed2 (c + jsClampDuration (trimL l).length)) (k + 1) := by
  simp only [parseTxtLoop, h]

theorem parseTxtLoop_cons_shape (l : List Char) (rest : List (List Char))
    (c : ℚ) (k : ℕ) :
    ∃ seg : Sentence,
      parseTxtLoop (l :: rest) c k = seg :: parseTxtLoop rest seg.endTime (k + 1) := by
  cases h : matchMarker (trimL l) with
  | none => exact ⟨_, parseTxtLoop_cons_heur rest c k h⟩
  | some v =>
    obtain ⟨s, e, tx⟩ := v
    exact ⟨_, parseTxtLoop_cons_br rest c k h⟩

theorem parseTxtLoop_length : ∀ (L : List (List Char)) (c : ℚ) (k : ℕ),
    (parseTxtLoop L c k).length = L.length
  | [], _, _ => rfl
  | l :: rest, c, k => by
    obtain ⟨seg, hs⟩ := parseTxtLoop_cons_shape l rest c k
    rw [hs]
    simp [parseTxtLoop_length rest]

theorem parseTxtLoop_drop : ∀ (i : ℕ) (L : List (List Char)) (c : ℚ) (k : ℕ),
    i < L.length →
    (parseTxtLoop L c k).drop (i + 1) =
      parseTxtLoop (L.drop (i + 1))
        (((parseTxtLoop L c k).getD i dummySentence).endTime) (k + i + 1)
  | 0, [], _, _, h => absurd h (by simp)
  | 0, l :: rest, c, k, _ => by
    obtain ⟨seg, hs⟩ := parseTxtLoop_cons_shape l rest c k
    rw [hs]
    rfl
  | i + 1, [], _, _, h => absurd h (by simp)
  | i + 1, l :: rest, c, k, h => by
    obtain ⟨seg, hs⟩ := parseTxtLoop_cons_shape l rest c k
    rw [hs]
    have hr : i < rest.length := by simpa using h
    have := parseTxtLoop_drop i rest seg.endTime (k + 1) hr
    simp only [List.drop_succ_cons, List.getD_cons_succ]
    rw [this]
    ring_nf

theorem isBracketed_false_iff {l : List Char} :
    isBracketed l = false ↔ matchMarker (trimL l) = none := by
  unfold isBracketed
  cases matchMarker (trimL l) <;> simp

theorem parseTxtLoop_getD_unbr :
    ∀ (i : ℕ) (L : List (List Char)) (c : ℚ) (k : ℕ),
    i < L.length → isBracketed (L.getD i []) = false →
    ∃ cprev : ℚ,
      ((i = 0 → cprev = c) ∧
        (∀ j, i = j + 1 →
          cprev = ((parseTxtLoop L c k).getD j dummySentence).endTime)) ∧
      (parseTxtLoop L c k).getD i dummySentence =
        { id := genId (k + i), text := String.mk (trimL (L.getD i [])),
          startTime := toFixed2 cprev,
          endTime := toFixed2 (cprev + jsClampDuration (trimL (L.getD i [])).length),
          loopCount := 1 }
  | 0, [], _, _, h, _ => absurd h (by simp)
  | 0, l :: rest, c, k, _, hb => by
    have hm : matchMarker (trimL l) = none := by
      simpa using isBracketed_false_iff.mp (by simpa using hb)
    refine ⟨c, ⟨fun _ => rfl, fun j hj => absurd hj (by omega)⟩, ?_⟩
    rw [parseTxtLoop_cons_heur rest c k hm]
    simp
  | j + 1, L, c, k, h, hb => by
    have hj : j < L.length := by omega
    have hdrop := parseTxtLoop_drop j L c k hj
    have hLdrop := drop_eq_getD_cons L (j + 1) ([] : List Char) h
    have hm : matchMarker (trimL (L.getD (j + 1) [])) = none :=
      isBracketed_false_iff.mp hb
    refine ⟨((parseTxtLoop L c k).getD j dummySentence).endTime,
      ⟨fun h0 => absurd h0 (by omega), fun j' hj' => by
        have : j' = j := by omega
        rw [this]⟩, ?_⟩
    rw [getD_eq_headD_drop, hdrop, hLdrop, parseTxtLoop_cons_heur _ _ _ hm]
    rfl

theorem parseTxtLoop_start_lt_end :
    ∀ (L : List (List Char)) (c : ℚ) (k : ℕ),
    (∀ l ∈ L, ∀ s e : ℚ, ∀ tx : List Char,
      matchMarker (trimL l) = some (s, e, tx) → s < e) →
    ∀ sg ∈ parseTxtLoop L c k, sg.startTime < sg.endTime
  | [], _, _, _, _, hsg => absurd hsg (by simp [parseTxtLoop])
  | l :: rest, c, k, hbr, sg, hsg => by
    cases hm : matchMarker (trimL l) with
    | some v =>
      obtain ⟨s, e, tx⟩ := v
      rw [parseTxtLoop_cons_br rest c k hm] at hsg
      rcases List.mem_cons.mp hsg with h | h
      · rw [h]
        exact hbr l (by simp) s e tx hm
      · exact parseTxtLoop_start_lt_end rest e (k + 1)
          (fun l' hl' => hbr l' (List.mem_cons_of_mem _ hl')) sg h
    | none =>
      rw [parseTxtLoop_cons_heur rest c k hm] at hsg
      rcases List.mem_cons.mp hsg with h | h
      · rw [h]
        show toFixed2 c < toFixed2 (c + jsClampDuration (trimL l).length)
        rw [toFixed2_add_centi c (centi_jsClampDuration _)]
        have := jsClampDuration_ge_two (trimL l).length
        linarith
      · exact parseTxtLoop_start_lt_end rest _ (k + 1)
          (fun l' hl' => hbr l' (List.mem_cons_of_mem _ hl')) sg h

theorem parseTxtLoop_loopCount_one :
    ∀ (L : List (List Char)) (c : ℚ) (k : ℕ),
    ∀ sg ∈ parseTxtLoop L c k, sg.loopCount = 1
  | [], _, _, _, hsg => absurd hsg (by simp [parseTxtLoop])
  | l :: rest, c, k, sg, hsg => by
    cases hm : matchMarker (trimL l) with
    | some v =>
      obtain ⟨s, e, tx⟩ := v
      rw [parseTxtLoop_cons_br rest c k hm] at hsg
      rcases List.mem_cons.mp hsg with h | h
      · rw [h]
      · exact parseTxtLoop_loopCount_one rest e (k + 1) sg h
    | none =>
      rw [parseTxtLoop_cons_heur rest c k hm] at hsg
      rcases List.mem_cons.mp hsg with h | h
      · rw [h]
      · exact parseTxtLoop_loopCount_one rest _ (k + 1) sg h

/-! ## C5: segment time invariant under import -/

/-- C5 (counterexample): the claim asserts `endTime > startTime` for every
segment of every import input, but the bracketed plain-text import copies
the explicit range verbatim: the line `"[2-1] x"` yields one segment with
`endTime = 1 < 2 = startTime`. -/
theorem import_invariant_counterexample :
    (parseTxtContent "[2-1] x").length = 1 ∧
    ((parseTxtContent "[2-1] x").getD 0 dummySentence).endTime <
      ((parseTxtContent "[2-1] x").getD 0 dummySentence).startTime := by
  constructor
  · decide
  · decide

/-- C5 (amended): segments synthesized by the heuristic branch of the
plain-text import always satisfy `startTime < endTime`; those built from explicit
timestamps (bracketed lines, subtitle cues, transcription cues) copy the
parsed times verbatim, so they satisfy the invariant exactly when the
explicit range does — no import path checks it. -/
theorem import_invariant_amended :
    (∀ (content : String) (i : ℕ), i < (txtLines content).length →
      isBracketed ((txtLines content).getD i []) = false →
      ((parseTxtContent content).getD i dummySentence).startTime <
        ((parseTxtContent content).getD i dummySentence).endTime) ∧
    (∀ content : String,
      (∀ l ∈ txtLines content, ∀ s e : ℚ, ∀ tx : List Char,
        matchMarker (trimL l) = some (s, e, tx) → s < e) →
      ∀ sg ∈ parseTxtContent content, sg.startTime < sg.endTime) ∧
    (∀ ms : List SrtMatch,
      (∀ m ∈ ms, parseSrtTime m.startRaw < parseSrtTime m.endRaw) →
      ∀ sg ∈ srtSentencesFromMatches ms, sg.startTime < sg.endTime) ∧
    (∀ ms : List SrtMatch,
      (∀ m ∈ ms, transcribeParseTime m.startRaw < transcribeParseTime m.endRaw) →
      ∀ sg ∈ transcribeSentencesFromMatches ms, sg.startTime < sg.endTime) := by
  refine ⟨?_, ?_, ?_, ?_⟩
  · intro content i hi hb
    obtain ⟨cprev, -, helt⟩ := parseTxtLoop_getD_unbr i (txtLines content) 0 0 hi hb
    simp only [parseTxtContent]
    rw [helt]
    show toFixed2 cprev < toFixed2 (cprev + _)
    rw [toFixed2_add_centi cprev (centi_jsClampDuration _)]
    have := jsClampDuration_ge_two (trimL ((txtLines content).getD i [])).length
    linarith
  · intro content hbr sg hsg
    exact parseTxtLoop_start_lt_end (txtLines content) 0 0 hbr sg hsg
  · intro ms hlt sg hsg
    obtain ⟨p, hp, rfl⟩ := List.mem_map.mp hsg
    have hmem : p.2 ∈ ms :=
      List.getElem?_mem (List.mem_enum_iff_getElem?.mp hp)
    exact hlt p.2 hmem
  · intro ms hlt sg hsg
    obtain ⟨p, hp, rfl⟩ := List.mem_map.mp hsg
    have hmem : p.2 ∈ ms :=
      List.getElem?_mem (List.mem_enum_iff_getElem?.mp hp)
    exact hlt p.2 hmem

/-- C5 (witness): the amended theorem applied to concrete imports — a
heuristic two-line text, a mixed bracketed/plain text, one subtitle cue and
one transcription cue. -/
theorem import_invariant_witness :
    (0 < (txtLines "hi there\nmore text").length ∧
      isBracketed ((txtLines "hi there\nmore text").getD 0 []) = false ∧
      ((parseTxtContent "hi there\nmore text").getD 0 dummySentence).startTime <
        ((parseTxtContent "hi there\nmore text").getD 0 dummySentence).endTime) ∧
    ((∀ l ∈ txtLines "[1-2] ok\nplain", ∀ s e : ℚ, ∀ tx : List Char,
        matchMarker (trimL l) = some (s, e, tx) → s < e) ∧
      ∀ sg ∈ parseTxtContent "[1-2] ok\nplain", sg.startTime < sg.endTime) ∧
    ((∀ m ∈ [SrtMatch.mk "1" "00:00:01,000" "00:00:02,500" "hi"],
        parseSrtTime m.startRaw < parseSrtTime m.endRaw) ∧
      ∀ sg ∈ srtSentencesFromMatches [SrtMatch.mk "1" "00:00:01,000" "00:00:02,500" "hi"],
        sg.startTime < sg.endTime) ∧
    ((∀ m ∈ [SrtMatch.mk "1" "00:00:03,000" "00:00:04,000" "yo"],
        transcribeParseTime m.startRaw < transcribeParseTime m.endRaw) ∧
      ∀ sg ∈ transcribeSentencesFromMatches
          [SrtMatch.mk "1" "00:00:03,000" "00:00:04,000" "yo"],
        sg.startTime < sg.endTime) := by
  have htxt : ∀ l ∈ txtLines "[1-2] ok\nplain", ∀ s e : ℚ, ∀ tx : List Char,
      matchMarker (trimL l) = some (s, e, tx) → s < e := by
    intro l hl s e tx hm
    rw [show txtLines "[1-2] ok\nplain" = ["[1-2] ok".data, "plain".data] from by decide] at hl
    rcases List.mem_cons.mp hl with rfl | hl2
    · rw [show matchMarker (trimL "[1-2] ok".data) =
        some (((1 : ℕ) : ℚ), ((2 : ℕ) : ℚ), "ok".data) from rfl] at hm
      simp only [Option.some.injEq, Prod.mk.injEq] at hm
      obtain ⟨hs, he, -⟩ := hm
      rw [← hs, ← he]
      push_cast
      norm_num
    · rcases List.mem_singleton.mp hl2 with rfl
      rw [show matchMarker (trimL "plain".data) = none from rfl] at hm
      exact absurd hm (by simp)
  have hsrt : ∀ m ∈ [SrtMatch.mk "1" "00:00:01,000" "00:00:02,500" "hi"],
      parseSrtTime m.startRaw < parseSrtTime m.endRaw := by
    intro m hm
    rcases List.mem_singleton.mp hm with rfl
    rw [show parseSrtTime "00:00:01,000" =
        ((0 : ℕ) : ℚ) * 3600 + ((0 : ℕ) : ℚ) * 60 + ((1 : ℕ) : ℚ) + ((0 : ℕ) : ℚ) / 1000
      from rfl,
      show parseSrtTime "00:00:02,500" =
        ((0 : ℕ) : ℚ) * 3600 + ((0 : ℕ) : ℚ) * 60 + ((2 : ℕ) : ℚ) + ((500 : ℕ) : ℚ) / 1000
      from rfl]
    push_cast
    norm_num
  have htr : ∀ m ∈ [SrtMatch.mk "1" "00:00:03,000" "00:00:04,000" "yo"],
      transcribeParseTime m.startRaw < transcribeParseTime m.endRaw := by
    intro m hm
    rcases List.mem_singleton.mp hm with rfl
    rw [show transcribeParseTime "00:00:03,000" =
        ((0 : ℕ) : ℚ) * 3600 + ((0 : ℕ) : ℚ) * 60 + ((3 : ℕ) : ℚ) + ((0 : ℕ) : ℚ) / 1000
      from rfl,
      show transcribeParseTime "00:00:04,000" =
        ((0 : ℕ) : ℚ) * 3600 + ((0 : ℕ) : ℚ) * 60 + ((4 : ℕ) : ℚ) + ((0 : ℕ) : ℚ) / 1000
      from rfl]
    push_cast
    norm_num
  exact ⟨⟨by decide, by decide,
      import_invariant_amended.1 "hi there\nmore text" 0 (by decide) (by decide)⟩,
    ⟨htxt, import_invariant_amended.2.1 _ htxt⟩,
    ⟨hsrt, import_invariant_amended.2.2.1 _ hsrt⟩,
    ⟨htr, import_invariant_amended.2.2.2 _ htr⟩⟩

/-! ## C6: zero-gap chaining and clamped durations in plain-text import -/

/-- C6 (counterexample): the claim says a synthesized range starts at 0 (first
line) or at the previous segment's end; but the source rounds the running
time with `toFixed(2)`. After the bracketed line `"[0-1.005] a"` (end
`1.005`), the heuristic line `"hello"` starts at `1.01` — neither `0` nor
the previous segment's end. -/
theorem txt_chain_counterexample :
    isBracketed ((txtLines "[0-1.005] a\nhello").getD 1 []) = false ∧
    ((parseTxtContent "[0-1.005] a\nhello").getD 1 dummySentence).startTime ≠
      ((parseTxtContent "[0-1.005] a\nhello").getD 0 dummySentence).endTime ∧
    ((parseTxtContent "[0-1.005] a\nhello").getD 1 dummySentence).startTime ≠ 0 := by
  have h : parseTxtContent "[0-1.005] a\nhello" =
      [{ id := genId 0, text := "a", startTime := ((0 : ℕ) : ℚ),
         endTime := ((1 : ℕ) : ℚ) + ((5 : ℕ) : ℚ) / (10 : ℚ) ^ 3, loopCount := 1 },
       { id := genId 1, text := "hello",
         startTime := toFixed2 (((1 : ℕ) : ℚ) + ((5 : ℕ) : ℚ) / (10 : ℚ) ^ 3),
         endTime := toFixed2 ((((1 : ℕ) : ℚ) + ((5 : ℕ) : ℚ) / (10 : ℚ) ^ 3) +
           jsClampDuration 5),
         loopCount := 1 }] := rfl
  have hval : toFixed2 (((1 : ℕ) : ℚ) + ((5 : ℕ) : ℚ) / (10 : ℚ) ^ 3) = 101 / 100 := by
    rw [toFixed2,
      show (((1 : ℕ) : ℚ) + ((5 : ℕ) : ℚ) / (10 : ℚ) ^ 3) * 100 + 1 / 2 = 101 by
        push_cast; norm_num,
      show ⌊(101 : ℚ)⌋ = 101 by norm_num]
    norm_num
  refine ⟨by decide, ?_, ?_⟩
  · rw [h]
    simp only [List.getD_cons_succ, List.getD_cons_zero, hval]
    push_cast
    norm_num
  · rw [h]
    simp only [List.getD_cons_succ, List.getD_cons_zero, hval]
    norm_num

/-- C6 (amended): in plain-text import, (a) each line yields one segment;
(b) each heuristic (non-bracketed) line's duration is exactly
`clamp(0.1 × length, 2, 10)`; (c) consecutive heuristic lines chain with
zero gap; (d) a heuristic first line starts at 0; (e) in general a heuristic
line starts at the previous segment's end rounded to two decimals
(`toFixed(2)`) — equal to the end itself whenever that end is a whole number
of hundredths, in particular after any heuristic line. -/
theorem txt_chain_amended (content : String) :
    (parseTxtContent content).length = (txtLines content).length ∧
    (∀ i : ℕ, i < (txtLines content).length →
      isBracketed ((txtLines content).getD i []) = false →
      ((parseTxtContent content).getD i dummySentence).endTime -
          ((parseTxtContent content).getD i dummySentence).startTime
        = jsClampDuration (trimL ((txtLines content).getD i [])).length ∧
      2 ≤ jsClampDuration (trimL ((txtLines content).getD i [])).length ∧
      jsClampDuration (trimL ((txtLines content).getD i [])).length ≤ 10) ∧
    (∀ i : ℕ, i + 1 < (txtLines content).length →
      isBracketed ((txtLines content).getD i []) = false →
      isBracketed ((txtLines content).getD (i + 1) []) = false →
      ((parseTxtContent content).getD (i + 1) dummySentence).startTime =
        ((parseTxtContent content).getD i dummySentence).endTime) ∧
    (0 < (txtLines content).length →
      isBracketed ((txtLines content).getD 0 []) = false →
      ((parseTxtContent content).getD 0 dummySentence).startTime = 0) ∧
    (∀ i : ℕ, i + 1 < (txtLines content).length →
      isBracketed ((txtLines content).getD (i + 1) []) = false →
      ((parseTxtContent content).getD (i + 1) dummySentence).startTime =
        toFixed2 (((parseTxtContent content).getD i dummySentence).endTime)) := by
  simp only [parseTxtContent]
  refine ⟨parseTxtLoop_length _ 0 0, ?_, ?_, ?_, ?_⟩
  · intro i hi hb
    obtain ⟨cprev, -, helt⟩ := parseTxtLoop_getD_unbr i (txtLines content) 0 0 hi hb
    rw [helt]
    refine ⟨?_, jsClampDuration_ge_two _, jsClampDuration_le_ten _⟩
    show toFixed2 (cprev + _) - toFixed2 cprev = _
    rw [toFixed2_add_centi cprev (centi_jsClampDuration _)]
    ring
  · intro i hi hb0 hb1
    obtain ⟨cp1, ⟨-, hprev⟩, helt1⟩ :=
      parseTxtLoop_getD_unbr (i + 1) (txtLines content) 0 0 hi hb1
    obtain ⟨cp0, -, helt0⟩ :=
      parseTxtLoop_getD_unbr i (txtLines content) 0 0 (by omega) hb0
    rw [helt1]
    show toFixed2 cp1 = _
    rw [hprev i rfl, helt0]
    show toFixed2 (toFixed2 _) = _
    exact toFixed2_eq_self (centi_toFixed2 _)
  · intro h0 hb
    obtain ⟨cp, ⟨hc0, -⟩, helt⟩ :=
      parseTxtLoop_getD_unbr 0 (txtLines content) 0 0 h0 hb
    rw [helt]
    show toFixed2 cp = 0
    rw [hc0 rfl]
    exact toFixed2_zero
  · intro i hi hb1
    obtain ⟨cp1, ⟨-, hprev⟩, helt1⟩ :=
      parseTxtLoop_getD_unbr (i + 1) (txtLines content) 0 0 hi hb1
    rw [helt1]
    show toFixed2 cp1 = _
    rw [hprev i rfl]

/-- C6 (witness): the amended theorem at the three-line input
`"[0-1.4] intro"` / `"hello world"` / `"bye"`: both heuristic lines have
clamped durations, they chain with zero gap, and the first heuristic line
starts at the rounded end of the bracketed segment. -/
theorem txt_chain_witness :
    (1 + 1 < (txtLines "[0-1.4] intro\nhello world\nbye").length ∧
      isBracketed ((txtLines "[0-1.4] intro\nhello world\nbye").getD 1 []) = false ∧
      isBracketed ((txtLines "[0-1.4] intro\nhello world\nbye").getD 2 []) = false) ∧
    ((parseTxtContent "[0-1.4] intro\nhello world\nbye").getD 2 dummySentence).startTime =
      ((parseTxtContent "[0-1.4] intro\nhello world\nbye").getD 1 dummySentence).endTime ∧
    ((parseTxtContent "[0-1.4] intro\nhello world\nbye").getD 1 dummySentence).endTime -
        ((parseTxtContent "[0-1.4] intro\nhello world\nbye").getD 1 dummySentence).startTime
      = jsClampDuration (trimL ((txtLines "[0-1.4] intro\nhello world\nbye").getD 1 [])).length := by
  refine ⟨⟨by decide, by decide, by decide⟩, ?_, ?_⟩
  · exact (txt_chain_amended "[0-1.4] intro\nhello world\nbye").2.2.1 1 (by decide)
      (by decide) (by decide)
  · exact ((txt_chain_amended "[0-1.4] intro\nhello world\nbye").2.1 1 (by decide)
      (by decide)).1

/-! ## C10: every imported segment carries `loopCount = 1` -/

/-- C10: every segment built by any import path — plain-text (bracketed or
heuristic), subtitle-format, and AI transcription — is created with
`loopCount = 1`. -/
theorem import_loopCount_one :
    (∀ (isSrt : Bool) (content : String) (srtMatchesOf : String → List SrtMatch),
      ∀ sg ∈ processContent isSrt content srtMatchesOf, sg.loopCount = 1) ∧
    (∀ ms : List SrtMatch,
      ∀ sg ∈ transcribeSentencesFromMatches ms, sg.loopCount = 1) := by
  constructor
  · intro isSrt content srtMatchesOf sg hsg
    cases isSrt with
    | false =>
      simp only [processContent, Bool.false_eq_true, if_false] at hsg
      exact parseTxtLoop_loopCount_one _ 0 0 sg hsg
    | true =>
      simp only [processContent, if_true] at hsg
      obtain ⟨p, -, rfl⟩ := List.mem_map.mp hsg
      rfl
  · intro ms sg hsg
    obtain ⟨p, -, rfl⟩ := List.mem_map.mp hsg
    rfl

/-- C10 (witness): concrete segments from the plain-text path, the subtitle
path and the transcription path, each with `loopCount = 1`. -/
theorem import_loopCount_one_witness :
    ((parseTxtContent "hey you").getD 0 dummySentence ∈
        processContent false "hey you" (fun _ => []) ∧
      ((parseTxtContent "hey you").getD 0 dummySentence).loopCount = 1) ∧
    ((srtSentencesFromMatches [SrtMatch.mk "1" "00:00:01,000" "00:00:02,000" "hi"]).getD 0
        dummySentence ∈
        processContent true "ignored"
          (fun _ => [SrtMatch.mk "1" "00:00:01,000" "00:00:02,000" "hi"]) ∧
      ((srtSentencesFromMatches
          [SrtMatch.mk "1" "00:00:01,000" "00:00:02,000" "hi"]).getD 0
            dummySentence).loopCount = 1) ∧
    ((transcribeSentencesFromMatches
        [SrtMatch.mk "1" "00:00:01,000" "00:00:02,000" "hi"]).getD 0 dummySentence ∈
        transcribeSentencesFromMatches
          [SrtMatch.mk "1" "00:00:01,000" "00:00:02,000" "hi"] ∧
      ((transcribeSentencesFromMatches
          [SrtMatch.mk "1" "00:00:01,000" "00:00:02,000" "hi"]).getD 0
            dummySentence).loopCount = 1) := by
  have h1 : parseTxtContent "hey you" =
      [{ id := genId 0, text := "hey you", startTime := toFixed2 0,
         endTime := toFixed2 (0 + jsClampDuration 7), loopCount := 1 }] := rfl
  have h2 : srtSentencesFromMatches [SrtMatch.mk "1" "00:00:01,000" "00:00:02,000" "hi"] =
      [srtSentenceOfMatch 0 (SrtMatch.mk "1" "00:00:01,000" "00:00:02,000" "hi")] := rfl
  have h3 : transcribeSentencesFromMatches
        [SrtMatch.mk "1" "00:00:01,000" "00:00:02,000" "hi"] =
      [transcribeSentenceOfMatch 0 (SrtMatch.mk "1" "00:00:01,000" "00:00:02,000" "hi")] := rfl
  have hm1 : (parseTxtContent "hey you").getD 0 dummySentence ∈
      processContent false "hey you" (fun _ => []) := by
    show _ ∈ parseTxtContent "hey you"
    rw [h1]
    simp only [List.getD_cons_zero]
    exact List.mem_singleton_self _
  have hm2 : (srtSentencesFromMatches
        [SrtMatch.mk "1" "00:00:01,000" "00:00:02,000" "hi"]).getD 0 dummySentence ∈
      processContent true "ignored"
        (fun _ => [SrtMatch.mk "1" "00:00:01,000" "00:00:02,000" "hi"]) := by
    show _ ∈ srtSentencesFromMatches [SrtMatch.mk "1" "00:00:01,000" "00:00:02,000" "hi"]
    rw [h2]
    simp only [List.getD_cons_zero]
    exact List.mem_singleton_self _
  have hm3 : (transcribeSentencesFromMatches
        [SrtMatch.mk "1" "00:00:01,000" "00:00:02,000" "hi"]).getD 0 dummySentence ∈
      transcribeSentencesFromMatches
        [SrtMatch.mk "1" "00:00:01,000" "00:00:02,000" "hi"] := by
    rw [h3]
    simp only [List.getD_cons_zero]
    exact List.mem_singleton_self _
  exact ⟨⟨hm1, import_loopCount_one.1 false "hey you" (fun _ => []) _ hm1⟩,
    ⟨hm2, import_loopCount_one.1 true "ignored"
      (fun _ => [SrtMatch.mk "1" "00:00:01,000" "00:00:02,000" "hi"]) _ hm2⟩,
    ⟨hm3, import_loopCount_one.2 _ _ hm3⟩⟩

/-! ## Helper lemmas: engine -/

theorem find_id_of_nodup :
    ∀ (l : List Sentence), (l.map Sentence.id).Nodup →
    ∀ s ∈ l, l.find? (fun x => x.id == s.id) = some s
  | [], _, _, hs => absurd hs (by simp)
  | h :: tl, hnd, s, hs => by
    rcases List.mem_cons.mp hs with rfl | htl
    · simp [List.find?]
    · have hne : h.id ≠ s.id := by
        intro he
        have : s.id ∈ tl.map Sentence.id := List.mem_map_of_mem _ htl
        rw [← he] at this
        exact (List.nodup_cons.mp (by simpa using hnd)).1 this
      rw [List.find?]
      rw [show (h.id == s.id) = false from beq_eq_false_iff_ne.mpr hne]
      exact find_id_of_nodup tl (List.nodup_cons.mp (by simpa using hnd)).2 s htl

/-! ## C2: loop branch — pause, delay, seek-resume, counted cycles -/

/-- C2: on a boundary crossing while not awaiting the delay, with loop budget
remaining (`loopsCompleted < maxLoops - 1`, `maxLoops = ∞` for the `-1`
sentinel), the engine pauses, enters the awaiting state and schedules the
`loopDelay` timer on the active segment; the timer firing seeks to that
segment's `startTime`, resumes, increments the loop counter and clears the
awaiting state. With `loopCountOption = 3`, `loopDelay = 0.2` and a segment
`[1, 2]` crossed three times, exactly two pause-seek-resume cycles occur,
`loopsCompleted` reaches 2, and the third crossing takes the terminal branch
(no further timer, counter reset). -/
theorem loop_cycle_and_triple_crossing :
    (∀ (settings : PlaybackSettings) (st : EngineState) (t : ℚ) (cs : Sentence),
      st.isDelaying = false →
      activeSentence st = some cs →
      cs.endTime ≤ t →
      LoopBudgetRemains settings st.currentLoop →
      handleTimeUpdate settings st t =
        { st with position := t, paused := true, isDelaying := true,
                  pendingTimer := some (cs, settings.loopDelay) }) ∧
    (∀ (st : EngineState) (s : Sentence) (d : ℚ),
      st.pendingTimer = some (s, d) →
      timerFire st =
        { st with position := s.startTime, paused := false,
                  currentLoop := st.currentLoop + 1, isDelaying := false,
                  pendingTimer := Option.none }) ∧
    (let seg : Sentence :=
       { id := "s1", text := "t", startTime := 1, endTime := 2, loopCount := 1 }
     let settings : PlaybackSettings :=
       { loopCountOption := 3, loopDelay := 1 / 5, playbackRate := 1,
         autoPlayNext := false }
     let st0 : EngineState :=
       { sentences := [seg], currentSentenceId := some "s1", currentLoop := 0,
         isDelaying := false, paused := false, position := 1,
         pendingTimer := Option.none }
     let st1 := handleTimeUpdate settings st0 2
     let st2 := timerFire st1
     let st3 := handleTimeUpdate settings st2 2
     let st4 := timerFire st3
     let st5 := handleTimeUpdate settings st4 2
     (st1.paused = true ∧ st1.isDelaying = true ∧
        st1.pendingTimer.map Prod.fst = some seg) ∧
     (st2.paused = false ∧ st2.position = 1 ∧ st2.currentLoop = 1 ∧
        st2.pendingTimer = Option.none) ∧
     (st3.paused = true ∧ st3.isDelaying = true ∧
        st3.pendingTimer.map Prod.fst = some seg) ∧
     (st4.paused = false ∧ st4.position = 1 ∧ st4.currentLoop = 2 ∧
        st4.pendingTimer = Option.none) ∧
     (st5.paused = true ∧ st5.position = 1 ∧ st5.currentLoop = 0 ∧
        st5.isDelaying = false ∧ st5.pendingTimer = Option.none)) := by
  refine ⟨?_, ?_, ?_⟩
  · intro settings st t cs h1 h2 h3 h4
    obtain ⟨sents, cid, loop, delay, paused, pos, timer⟩ := st
    simp only at h1
    subst h1
    simp only [handleTimeUpdate]
    rw [show activeSentence
        { sentences := sents, currentSentenceId := cid, currentLoop := loop,
          isDelaying := false, paused := paused, position := t,
          pendingTimer := timer } = some cs from h2]
    dsimp only
    rw [if_pos (show ¬false = true ∧ cs.endTime ≤ t from ⟨by simp, h3⟩),
      if_pos (show LoopBudgetRemains settings loop from h4)]
  · intro st s d h
    obtain ⟨sents, cid, loop, delay, paused, pos, timer⟩ := st
    simp only at h
    subst h
    rfl
  · decide

theorem getD_eq_getElem_of_lt {α : Type} (l : List α) (n : ℕ) (d : α)
    (h : n < l.length) : l.getD n d = l[n] := by
  rw [List.getD_eq_getElem?_getD, List.getElem?_eq_getElem h]
  rfl

/-- C2 (witness): the loop branch and the timer at a concrete state — a
single segment `[1, 2]`, `loopCountOption = 3`, `loopDelay = 0.2`, crossing
at position 2 with no loop completed yet. -/
theorem loop_cycle_witness :
    ((EngineState.mk
        [Sentence.mk "s1" "t" 1 2 1] (some "s1") 0 false false 1 Option.none).isDelaying
        = false ∧
      activeSentence (EngineState.mk
        [Sentence.mk "s1" "t" 1 2 1] (some "s1") 0 false false 1 Option.none)
        = some (Sentence.mk "s1" "t" 1 2 1) ∧
      (Sentence.mk "s1" "t" 1 2 1).endTime ≤ (2 : ℚ) ∧
      LoopBudgetRemains (PlaybackSettings.mk 3 (1 / 5) 1 false) 0 ∧
      handleTimeUpdate (PlaybackSettings.mk 3 (1 / 5) 1 false)
          (EngineState.mk
            [Sentence.mk "s1" "t" 1 2 1] (some "s1") 0 false false 1 Option.none) 2 =
        EngineState.mk [Sentence.mk "s1" "t" 1 2 1] (some "s1") 0 true true 2
          (some (Sentence.mk "s1" "t" 1 2 1, (PlaybackSettings.mk 3 (1 / 5) 1 false).loopDelay))) ∧
    ((EngineState.mk
        [Sentence.mk "s1" "t" 1 2 1] (some "s1") 0 true true 2
          (some (Sentence.mk "s1" "t" 1 2 1, 1 / 5))).pendingTimer
        = some (Sentence.mk "s1" "t" 1 2 1, (1 : ℚ) / 5) ∧
      timerFire (EngineState.mk
          [Sentence.mk "s1" "t" 1 2 1] (some "s1") 0 true true 2
            (some (Sentence.mk "s1" "t" 1 2 1, 1 / 5))) =
        EngineState.mk [Sentence.mk "s1" "t" 1 2 1] (some "s1") 1 false false 1
          Option.none) := by
  refine ⟨⟨by decide, by decide, by decide, by decide, ?_⟩, ⟨rfl, ?_⟩⟩
  · exact loop_cycle_and_triple_crossing.1 (PlaybackSettings.mk 3 (1 / 5) 1 false)
      (EngineState.mk [Sentence.mk "s1" "t" 1 2 1] (some "s1") 0 false false 1
        Option.none) 2 (Sentence.mk "s1" "t" 1 2 1)
      (by decide) (by decide) (by decide) (by decide)
  · exact loop_cycle_and_triple_crossing.2.1
      (EngineState.mk [Sentence.mk "s1" "t" 1 2 1] (some "s1") 0 true true 2
        (some (Sentence.mk "s1" "t" 1 2 1, 1 / 5)))
      (Sentence.mk "s1" "t" 1 2 1) (1 / 5) rfl

/-! ## C3: terminal branch with auto-play and an existing next segment -/

theorem findIdx?_some_facts {α : Type} {p : α → Bool} :
    ∀ (l : List α) (i : ℕ), l.findIdx? p = some i →
    ∃ h : i < l.length, p (l[i]) = true := by
  intro l i h
  obtain ⟨hi, hp, -⟩ := List.findIdx?_eq_some_iff_getElem.mp h
  exact ⟨hi, hp⟩

/-- C3: on a boundary crossing with the loop budget exhausted, `autoPlayNext`
enabled and a next segment present (the active segment sits at index `i`,
`i + 1` in range, segment ids distinct), the engine selects the next
segment, seeks to its `startTime`, keeps the transport playing
(`paused = false`), and resets `loopsCompleted` to 0. -/
theorem loop_terminal_advance (settings : PlaybackSettings) (st : EngineState)
    (t : ℚ) (cs : Sentence) (i : ℕ)
    (hnd : (st.sentences.map Sentence.id).Nodup)
    (h1 : st.isDelaying = false)
    (h2 : activeSentence st = some cs)
    (h3 : cs.endTime ≤ t)
    (h4 : ¬LoopBudgetRemains settings st.currentLoop)
    (h5 : settings.autoPlayNext = true)
    (h6 : st.sentences.findIdx? (fun s => some s.id == st.currentSentenceId) = some i)
    (h7 : i + 1 < st.sentences.length) :
    handleTimeUpdate settings st t =
      { st with
        currentSentenceId := some (st.sentences.getD (i + 1) dummySentence).id,
        position := (st.sentences.getD (i + 1) dummySentence).startTime,
        paused := false, currentLoop := 0, isDelaying := false } := by
  obtain ⟨sents, cid, loop, delay, paused, pos, timer⟩ := st
  simp only at h1 h2 h4 h6 h7 hnd ⊢
  subst h1
  obtain ⟨hi, hpi⟩ := findIdx?_some_facts sents i h6
  have hcid : cid = some (sents[i]).id := (beq_iff_eq.mp hpi).symm
  have hgetD : sents.getD (i + 1) dummySentence = sents[i + 1] :=
    getD_eq_getElem_of_lt sents (i + 1) dummySentence h7
  have hids : (sents[i]).id ≠ (sents[i + 1]).id := by
    intro he
    have hlm1 : i < (sents.map Sentence.id).length := by
      rw [List.length_map]
      omega
    have hlm2 : i + 1 < (sents.map Sentence.id).length := by
      rw [List.length_map]
      omega
    have hmi : (sents.map Sentence.id)[i] = (sents.map Sentence.id)[i + 1] := by
      rw [List.getElem_map, List.getElem_map]
      exact he
    have := hnd.getElem_inj_iff.mp hmi
    omega
  have hmem : sents[i + 1] ∈ sents := List.getElem_mem h7
  simp only [handleTimeUpdate]
  rw [show activeSentence
      { sentences := sents, currentSentenceId := cid, currentLoop := loop,
        isDelaying := false, paused := paused, position := t,
        pendingTimer := timer } = some cs from h2]
  dsimp only
  rw [if_pos (show ¬false = true ∧ cs.endTime ≤ t from ⟨by simp, h3⟩),
    if_neg (show ¬LoopBudgetRemains settings loop from h4)]
  rw [if_pos (show (settings.autoPlayNext && true) = true by rw [h5]; rfl)]
  simp only [handleNext]
  rw [show findIdxJs sents cid = (i : ℤ) from by simp only [findIdxJs, h6]]
  rw [if_pos (show (i : ℤ) < ((sents.length : ℕ) : ℤ) - 1 from by omega)]
  rw [show ((i : ℤ) + 1).toNat = i + 1 from by omega]
  simp only [handleSentenceClick]
  rw [if_neg (show ¬cid = some (sents.getD (i + 1) dummySentence).id from by
    rw [hcid, hgetD]
    simp only [Option.some.injEq]
    exact hids)]
  simp only [sentenceChangeEffect]
  rw [show activeSentence
      { sentences := sents,
        currentSentenceId := some (sents.getD (i + 1) dummySentence).id,
        currentLoop := 0, isDelaying := false, paused := false,
        position := (sents.getD (i + 1) dummySentence).startTime,
        pendingTimer := timer } = some (sents.getD (i + 1) dummySentence) from by
    simp only [activeSentence]
    rw [hgetD]
    exact find_id_of_nodup sents hnd sents[i + 1] hmem]
  dsimp only
  split
  · rfl
  · rfl

/-- C3 (witness): the terminal-advance theorem at a concrete two-segment
state — `loopCountOption = 1`, `autoPlayNext` on, active segment `[1, 2]` at
index 0, next segment `[3, 4]`; the crossing selects the next segment and
keeps playing. -/
theorem loop_terminal_advance_witness :
    (([Sentence.mk "a" "x" 1 2 1, Sentence.mk "b" "y" 3 4 1].map Sentence.id).Nodup ∧
      activeSentence (EngineState.mk
        [Sentence.mk "a" "x" 1 2 1, Sentence.mk "b" "y" 3 4 1]
        (some "a") 0 false false 2 Option.none) = some (Sentence.mk "a" "x" 1 2 1) ∧
      (Sentence.mk "a" "x" 1 2 1).endTime ≤ (2 : ℚ) ∧
      ¬LoopBudgetRemains (PlaybackSettings.mk 1 (1 / 5) 1 true) 0 ∧
      (PlaybackSettings.mk 1 (1 / 5) 1 true).autoPlayNext = true ∧
      [Sentence.mk "a" "x" 1 2 1, Sentence.mk "b" "y" 3 4 1].findIdx?
        (fun s => some s.id == some "a") = some 0) ∧
    handleTimeUpdate (PlaybackSettings.mk 1 (1 / 5) 1 true)
        (EngineState.mk [Sentence.mk "a" "x" 1 2 1, Sentence.mk "b" "y" 3 4 1]
          (some "a") 0 false false 2 Option.none) 2 =
      EngineState.mk [Sentence.mk "a" "x" 1 2 1, Sentence.mk "b" "y" 3 4 1]
        (some "b") 0 false false 3 Option.none := by
  refine ⟨⟨by decide, by decide, by decide, by decide, by decide, by decide⟩, ?_⟩
  exact loop_terminal_advance (PlaybackSettings.mk 1 (1 / 5) 1 true)
    (EngineState.mk [Sentence.mk "a" "x" 1 2 1, Sentence.mk "b" "y" 3 4 1]
      (some "a") 0 false false 2 Option.none) 2 (Sentence.mk "a" "x" 1 2 1) 0
    (by decide) (by decide) (by decide) (by decide) (by decide) (by decide)
    (by decide) (by decide)

/-! ## C1: terminal branch without a next segment (code bug) -/

/-- C1 (failing input): with `autoPlayNext` enabled, the loop budget
exhausted (`loopCountOption = 1`) and the active segment the **last** one,
the claim (and the source's own comment on the else-branch) requires
pause + seek back to `startTime`; but `hasNextSentence` is the constant
`true` (the guard reads `typeof hasNext !== 'undefined' ? hasNext : true`
and `hasNext` is never defined), so the code calls the advance callback —
a no-op at the last index — resets the counter, and leaves the transport
playing past the boundary. With `autoPlayNext` disabled, the same crossing
does pause and reset as claimed. -/
theorem loop_terminal_no_next_divergence :
    (let seg : Sentence := Sentence.mk "a" "x" 1 2 1
     let st0 : EngineState :=
       EngineState.mk [seg] (some "a") 0 false false 2 Option.none
     let st1 := handleTimeUpdate (PlaybackSettings.mk 1 (1 / 5) 1 true) st0 3
     st1.paused = false ∧ st1.position = 3 ∧ st1.position ≠ seg.startTime ∧
       st1.currentLoop = 0 ∧ st1.currentSentenceId = some "a" ∧
       st1.pendingTimer = Option.none) ∧
    (let seg : Sentence := Sentence.mk "a" "x" 1 2 1
     let st0 : EngineState :=
       EngineState.mk [seg] (some "a") 0 false false 2 Option.none
     let st2 := handleTimeUpdate (PlaybackSettings.mk 1 (1 / 5) 1 false) st0 3
     st2.paused = true ∧ st2.position = seg.startTime ∧ st2.currentLoop = 0) := by
  constructor
  · refine ⟨by decide, by decide, by decide, by decide, by decide, by decide⟩
  · refine ⟨by decide, by decide, by decide⟩

/-! ## C4: pending loop-delay timer is not cancelled (code bug) -/

/-- C4 (failing input): while the engine awaits the loop delay on segment
`a = [1, 2]`, the user selects segment `b = [3, 4]`. The source stores the
`setTimeout` id nowhere and never calls `clearTimeout`, so the pending timer
survives the selection (`pendingTimer` still holds segment `a`) and then
fires: it seeks the transport to `a.startTime = 1` — not `b.startTime` —
resumes, and bumps the loop counter, although segment `b` is active. The
claim that the timer is cancelled before the new state applies is false on
the code. -/
theorem stale_timer_divergence :
    (let a : Sentence := Sentence.mk "a" "x" 1 2 1
     let b : Sentence := Sentence.mk "b" "y" 3 4 1
     let settings := PlaybackSettings.mk 3 (1 / 5) 1 true
     let st0 : EngineState :=
       EngineState.mk [a, b] (some "a") 0 false false 1 Option.none
     let st1 := handleTimeUpdate settings st0 2
     let st2 := handleSentenceClick settings st1 b
     let st3 := timerFire st2
     (st1.isDelaying = true ∧ st1.pendingTimer.map Prod.fst = some a) ∧
     (st2.currentSentenceId = some "b" ∧ st2.position = b.startTime ∧
       st2.pendingTimer.map Prod.fst = some a) ∧
     (st3.currentSentenceId = some "b" ∧ st3.position = a.startTime ∧
       st3.position ≠ b.startTime ∧ st3.paused = false ∧
       st3.currentLoop = 1)) := by
  refine ⟨⟨by decide, by decide⟩, ⟨by decide, by decide, by decide⟩,
    by decide, by decide, by decide, by decide, by decide⟩

/-! ## C7: deleting a group reassigns its projects to root -/

/-- C7: `deleteGroup g` removes exactly the group records with id `g` and
touches no project record except for clearing `groupId` on the projects of
that group: the project list keeps its length, the project at each index
either has only its `groupId` cleared (when it was in group `g`) or is left
entirely unchanged. -/
theorem deleteGroup_moves_projects (gid : String) (groups : List ProjectGroup)
    (projects : List Project) :
    (∀ g ∈ (deleteGroup gid groups projects).1, g.id ≠ gid) ∧
    (∀ g ∈ groups, g.id ≠ gid → g ∈ (deleteGroup gid groups projects).1) ∧
    (deleteGroup gid groups projects).2.length = projects.length ∧
    (∀ i : ℕ, ∀ h : i < projects.length,
      (projects[i].groupId = some gid →
        (deleteGroup gid groups projects).2[i]? =
          some { projects[i] with groupId := Option.none }) ∧
      (projects[i].groupId ≠ some gid →
        (deleteGroup gid groups projects).2[i]? = some projects[i])) := by
  refine ⟨?_, ?_, ?_, ?_⟩
  · intro g hg
    have := (List.mem_filter.mp hg).2
    exact bne_iff_ne.mp this
  · intro g hg hne
    exact List.mem_filter.mpr ⟨hg, bne_iff_ne.mpr hne⟩
  · exact List.length_map _ _
  · intro i h
    have hmap : (deleteGroup gid groups projects).2[i]? =
        (projects[i]?).map (fun p =>
          if p.groupId = some gid then { p with groupId := Option.none } else p) := by
      simp [deleteGroup, List.getElem?_map]
    rw [hmap, List.getElem?_eq_getElem h]
    constructor
    · intro hin
      simp [hin]
    · intro hout
      simp [if_neg hout]

/-- C7 (witness): deleting group `"g1"` from a two-group, two-project store:
the project of `"g1"` is moved to root with all other fields intact, the
project of `"g2"` is untouched, `"g2"` survives. -/
theorem deleteGroup_moves_projects_witness :
    ((ProjectGroup.mk "g2" "other" 5 ∈
        (deleteGroup "g1" [ProjectGroup.mk "g1" "mine" 4, ProjectGroup.mk "g2" "other" 5]
          [Project.mk "p1" (some "g1") "n1" 1 2 MediaType.none "" Option.none Option.none [] (-1) 70 16 0,
           Project.mk "p2" (some "g2") "n2" 1 2 MediaType.none "" Option.none Option.none [] (-1) 70 16 0]).1) ∧
      (Project.mk "p1" (some "g1") "n1" 1 2 MediaType.none "" Option.none Option.none [] (-1) 70 16 0).groupId
        = some "g1" ∧
      (Project.mk "p2" (some "g2") "n2" 1 2 MediaType.none "" Option.none Option.none [] (-1) 70 16 0).groupId
        ≠ some "g1") ∧
    (deleteGroup "g1" [ProjectGroup.mk "g1" "mine" 4, ProjectGroup.mk "g2" "other" 5]
        [Project.mk "p1" (some "g1") "n1" 1 2 MediaType.none "" Option.none Option.none [] (-1) 70 16 0,
         Project.mk "p2" (some "g2") "n2" 1 2 MediaType.none "" Option.none Option.none [] (-1) 70 16 0]).2[0]?
      = some (Project.mk "p1" Option.none "n1" 1 2 MediaType.none "" Option.none Option.none [] (-1) 70 16 0) ∧
    (deleteGroup "g1" [ProjectGroup.mk "g1" "mine" 4, ProjectGroup.mk "g2" "other" 5]
        [Project.mk "p1" (some "g1") "n1" 1 2 MediaType.none "" Option.none Option.none [] (-1) 70 16 0,
         Project.mk "p2" (some "g2") "n2" 1 2 MediaType.none "" Option.none Option.none [] (-1) 70 16 0]).2[1]?
      = some (Project.mk "p2" (some "g2") "n2" 1 2 MediaType.none "" Option.none Option.none [] (-1) 70 16 0) := by
  refine ⟨⟨?_, by decide, by decide⟩, ?_, ?_⟩
  · exact (deleteGroup_moves_projects "g1" _ _).2.1 _ (by decide) (by decide)
  · exact ((deleteGroup_moves_projects "g1"
      [ProjectGroup.mk "g1" "mine" 4, ProjectGroup.mk "g2" "other" 5] _).2.2.2 0
      (by decide)).1 (by decide)
  · exact ((deleteGroup_moves_projects "g1"
      [ProjectGroup.mk "g1" "mine" 4, ProjectGroup.mk "g2" "other" 5] _).2.2.2 1
      (by decide)).2 (by decide)

/-! ## C8: project deletion survives binary-store failure -/

/-- C8: `deleteProjectFromStorage` always removes the project from the
metadata collection — the surviving records are exactly those with a
different id, independently of the binary-store outcome; the metadata write
is the first event and the binary-delete attempt comes after it; a rejected
binary deletion only leaves the blob store untouched and logs a warning,
never undoing or blocking the metadata removal. -/
theorem deleteProject_metadata_independent (projectId : String)
    (outcome : MediaDbOutcome) (projects : List Project) (media : List String) :
    (∀ p ∈ (deleteProjectFromStorage projectId outcome projects media).1, p.id ≠ projectId) ∧
    (∀ p ∈ projects, p.id ≠ projectId →
      p ∈ (deleteProjectFromStorage projectId outcome projects media).1) ∧
    (deleteProjectFromStorage projectId outcome projects media).1 =
      (deleteProjectFromStorage projectId MediaDbOutcome.ok projects media).1 ∧
    (deleteProjectFromStorage projectId outcome projects media).2.2.getD 0 StorageEv.warn =
      StorageEv.metaWrite (deleteProjectFromStorage projectId outcome projects media).1 ∧
    (deleteProjectFromStorage projectId outcome projects media).2.2.getD 1 StorageEv.warn =
      StorageEv.mediaDeleteAttempt projectId ∧
    (outcome = MediaDbOutcome.txFail →
      (deleteProjectFromStorage projectId outcome projects media).2.1 = media ∧
      StorageEv.warn ∈ (deleteProjectFromStorage projectId outcome projects media).2.2) := by
  have hmem1 : ∀ p ∈ projects.filter (fun p => p.id != projectId), p.id ≠ projectId := by
    intro p hp
    exact bne_iff_ne.mp (List.mem_filter.mp hp).2
  have hmem2 : ∀ p ∈ projects, p.id ≠ projectId →
      p ∈ projects.filter (fun p => p.id != projectId) := by
    intro p hp hne
    exact List.mem_filter.mpr ⟨hp, bne_iff_ne.mpr hne⟩
  cases outcome with
  | ok =>
    exact ⟨hmem1, hmem2, rfl, rfl, rfl, fun h => absurd h (by simp)⟩
  | initFail =>
    exact ⟨hmem1, hmem2, rfl, rfl, rfl, fun h => absurd h (by simp)⟩
  | txFail =>
    exact ⟨hmem1, hmem2, rfl, rfl, rfl, fun _ => ⟨rfl, by simp [deleteProjectFromStorage, deleteMediaFromDB]⟩⟩

/-- C8 (witness): deleting project `"p1"` with a failing IndexedDB
transaction: the metadata record is gone, the other project survives, the
blob store is untouched, the warning is logged, and the event order is
metadata write first, binary attempt second. -/
theorem deleteProject_metadata_independent_witness :
    ((Project.mk "p2" Option.none "n2" 1 2 MediaType.none "" Option.none Option.none [] (-1) 70 16 0
        ∈ [Project.mk "p1" Option.none "n1" 1 2 MediaType.none "" Option.none Option.none [] (-1) 70 16 0,
           Project.mk "p2" Option.none "n2" 1 2 MediaType.none "" Option.none Option.none [] (-1) 70 16 0] ∧
      (Project.mk "p2" Option.none "n2" 1 2 MediaType.none "" Option.none Option.none [] (-1) 70 16 0).id ≠ "p1") ∧
      (MediaDbOutcome.txFail = MediaDbOutcome.txFail)) ∧
    (Project.mk "p2" Option.none "n2" 1 2 MediaType.none "" Option.none Option.none [] (-1) 70 16 0 ∈
      (deleteProjectFromStorage "p1" MediaDbOutcome.txFail
        [Project.mk "p1" Option.none "n1" 1 2 MediaType.none "" Option.none Option.none [] (-1) 70 16 0,
         Project.mk "p2" Option.none "n2" 1 2 MediaType.none "" Option.none Option.none [] (-1) 70 16 0]
        ["p1", "p2"]).1) ∧
    (∀ p ∈ (deleteProjectFromStorage "p1" MediaDbOutcome.txFail
        [Project.mk "p1" Option.none "n1" 1 2 MediaType.none "" Option.none Option.none [] (-1) 70 16 0,
         Project.mk "p2" Option.none "n2" 1 2 MediaType.none "" Option.none Option.none [] (-1) 70 16 0]
        ["p1", "p2"]).1, p.id ≠ "p1") ∧
    (deleteProjectFromStorage "p1" MediaDbOutcome.txFail
        [Project.mk "p1" Option.none "n1" 1 2 MediaType.none "" Option.none Option.none [] (-1) 70 16 0,
         Project.mk "p2" Option.none "n2" 1 2 MediaType.none "" Option.none Option.none [] (-1) 70 16 0]
        ["p1", "p2"]).2.1 = ["p1", "p2"] ∧
    StorageEv.warn ∈ (deleteProjectFromStorage "p1" MediaDbOutcome.txFail
        [Project.mk "p1" Option.none "n1" 1 2 MediaType.none "" Option.none Option.none [] (-1) 70 16 0,
         Project.mk "p2" Option.none "n2" 1 2 MediaType.none "" Option.none Option.none [] (-1) 70 16 0]
        ["p1", "p2"]).2.2 ∧
    (deleteProjectFromStorage "p1" MediaDbOutcome.txFail
        [Project.mk "p1" Option.none "n1" 1 2 MediaType.none "" Option.none Option.none [] (-1) 70 16 0,
         Project.mk "p2" Option.none "n2" 1 2 MediaType.none "" Option.none Option.none [] (-1) 70 16 0]
        ["p1", "p2"]).2.2.getD 1 StorageEv.warn = StorageEv.mediaDeleteAttempt "p1" := by
  refine ⟨⟨⟨by decide, by decide⟩, rfl⟩, ?_, ?_, ?_, ?_, ?_⟩
  · exact (deleteProject_metadata_independent "p1" MediaDbOutcome.txFail _ _).2.1 _
      (by decide) (by decide)
  · exact (deleteProject_metadata_independent "p1" MediaDbOutcome.txFail _ _).1
  · exact ((deleteProject_metadata_independent "p1" MediaDbOutcome.txFail _ _).2.2.2.2.2 rfl).1
  · exact ((deleteProject_metadata_independent "p1" MediaDbOutcome.txFail _ _).2.2.2.2.2 rfl).2
  · exact (deleteProject_metadata_independent "p1" MediaDbOutcome.txFail _ _).2.2.2.2.1

/-! ## C9: the time formatter -/

theorem int_toString_natCast (n : ℕ) : toString ((n : ℕ) : ℤ) = Nat.repr n := rfl

theorem padStart2_eq_pad2N : ∀ n : ℕ, n < 100 → padStart2 (Nat.repr n) = pad2N n := by
  decide

theorem jsTrunc_eq_floor {x : ℚ} (h : 0 ≤ x) : jsTrunc x = ⌊x⌋ := if_pos h

theorem floor_div_natCast_eq (q : ℚ) (hq : 0 ≤ q) (n : ℕ) :
    ⌊q / (n : ℚ)⌋ = ((⌊q⌋₊ / n : ℕ) : ℤ) := by
  rw [← Nat.floor_div_nat q n, Int.natCast_floor_eq_floor (by positivity)]

theorem clockFormat_of_nonneg (q : ℚ) (hq : 0 ≤ q) : ClockFormat q := by
  have hNle : ((⌊q⌋₊ : ℕ) : ℚ) ≤ q := Nat.floor_le hq
  have hNlt : q < (⌊q⌋₊ : ℚ) + 1 := Nat.lt_floor_add_one q
  -- hour
  have hVh : ⌊q / 3600⌋ = ((⌊q⌋₊ / 3600 : ℕ) : ℤ) := by
    rw [show (3600 : ℚ) = ((3600 : ℕ) : ℚ) by norm_cast]
    exact floor_div_natCast_eq q hq 3600
  -- minute
  have hcast3600 : (3600 : ℚ) * (((⌊q⌋₊ / 3600 : ℕ) : ℤ) : ℚ) =
      ((3600 * (⌊q⌋₊ / 3600) : ℕ) : ℚ) := by
    rw [Int.cast_natCast]
    push_cast
    ring
  have hmod3600 : jsMod q 3600 = q - ((3600 * (⌊q⌋₊ / 3600) : ℕ) : ℚ) := by
    unfold jsMod
    rw [jsTrunc_eq_floor (by positivity), hVh, hcast3600]
  have hr0 : (0 : ℚ) ≤ q - ((3600 * (⌊q⌋₊ / 3600) : ℕ) : ℚ) := by
    have h2 : ((3600 * (⌊q⌋₊ / 3600) : ℕ) : ℚ) ≤ ((⌊q⌋₊ : ℕ) : ℚ) := by
      exact_mod_cast Nat.cast_le.mpr (Nat.mul_div_le _ 3600)
    linarith
  have hfloorr : ⌊q - ((3600 * (⌊q⌋₊ / 3600) : ℕ) : ℚ)⌋₊ = ⌊q⌋₊ % 3600 := by
    rw [Nat.floor_sub_nat]
    omega
  have hVm : ⌊jsMod q 3600 / 60⌋ = ((⌊q⌋₊ % 3600 / 60 : ℕ) : ℤ) := by
    rw [hmod3600, show (60 : ℚ) = ((60 : ℕ) : ℚ) by norm_cast,
      floor_div_natCast_eq _ hr0 60, hfloorr]
  -- second
  have hVdiv60 : ⌊q / 60⌋ = ((⌊q⌋₊ / 60 : ℕ) : ℤ) := by
    rw [show (60 : ℚ) = ((60 : ℕ) : ℚ) by norm_cast]
    exact floor_div_natCast_eq q hq 60
  have hcast60 : (60 : ℚ) * (((⌊q⌋₊ / 60 : ℕ) : ℤ) : ℚ) =
      ((60 * (⌊q⌋₊ / 60) : ℕ) : ℚ) := by
    rw [Int.cast_natCast]
    push_cast
    ring
  have hmod60 : jsMod q 60 = q - ((60 * (⌊q⌋₊ / 60) : ℕ) : ℚ) := by
    unfold jsMod
    rw [jsTrunc_eq_floor (by positivity), hVdiv60, hcast60]
  have hr60 : (0 : ℚ) ≤ q - ((60 * (⌊q⌋₊ / 60) : ℕ) : ℚ) := by
    have h2 : ((60 * (⌊q⌋₊ / 60) : ℕ) : ℚ) ≤ ((⌊q⌋₊ : ℕ) : ℚ) := by
      exact_mod_cast Nat.cast_le.mpr (Nat.mul_div_le _ 60)
    linarith
  have hVs : ⌊jsMod q 60⌋ = ((⌊q⌋₊ % 60 : ℕ) : ℤ) := by
    rw [hmod60, ← Int.natCast_floor_eq_floor hr60, Nat.floor_sub_nat]
    congr 1
    omega
  -- centisecond
  have hM1 : 100 * ⌊q⌋₊ ≤ ⌊q * 100⌋₊ := by
    apply Nat.le_floor
    push_cast
    linarith
  have hM2 : ⌊q * 100⌋₊ < 100 * ⌊q⌋₊ + 100 := by
    rw [Nat.floor_lt (by positivity)]
    push_cast
    linarith
  have hVms : ⌊jsMod q 1 * 100⌋ = ((⌊q * 100⌋₊ % 100 : ℕ) : ℤ) := by
    unfold jsMod
    rw [div_one, jsTrunc_eq_floor hq, ← Int.natCast_floor_eq_floor hq]
    rw [show (q - 1 * ((((⌊q⌋₊ : ℕ) : ℤ)) : ℚ)) * 100 =
        q * 100 - ((100 * ⌊q⌋₊ : ℕ) : ℚ) by
      rw [Int.cast_natCast]
      push_cast
      ring]
    rw [← Int.natCast_floor_eq_floor (by push_cast; linarith), Nat.floor_sub_nat]
    congr 1
    omega
  -- assemble
  unfold ClockFormat
  simp only [formatTime]
  rw [hVh, hVm, hVs, hVms, int_toString_natCast, int_toString_natCast,
    int_toString_natCast, int_toString_natCast,
    padStart2_eq_pad2N _ (by omega), padStart2_eq_pad2N _ (by omega),
    padStart2_eq_pad2N _ (by omega)]
  simp only [Int.natCast_pos]

/-- C9: for every non-negative number of seconds, `formatTime` produces
`H:MM:SS.mm` when the hour component is positive and `MM:SS.mm` otherwise,
with zero-padded two-digit minutes, seconds and centiseconds (the
`ClockFormat` characterization by plain division/remainder); in particular
`formatTime 3725.07 = "1:02:05.07"` and `formatTime 65.5 = "01:05.50"`. -/
theorem formatTime_clock_shape :
    (∀ q : ℚ, 0 ≤ q → ClockFormat q) ∧
    formatTime (372507 / 100) = "1:02:05.07" ∧
    formatTime (131 / 2) = "01:05.50" := by
  refine ⟨clockFormat_of_nonneg, ?_, ?_⟩
  · have h := clockFormat_of_nonneg (372507 / 100) (by norm_num)
    unfold ClockFormat at h
    rw [h,
      show ⌊(372507 : ℚ) / 100⌋₊ = 3725 from by
        rw [Nat.floor_eq_iff (by norm_num)]
        norm_num,
      show ⌊(372507 : ℚ) / 100 * 100⌋₊ = 372507 from by
        rw [Nat.floor_eq_iff (by norm_num)]
        norm_num]
    decide
  · have h := clockFormat_of_nonneg (131 / 2) (by norm_num)
    unfold ClockFormat at h
    rw [h,
      show ⌊(131 : ℚ) / 2⌋₊ = 65 from by
        rw [Nat.floor_eq_iff (by norm_num)]
        norm_num,
      show ⌊(131 : ℚ) / 2 * 100⌋₊ = 6550 from by
        rw [Nat.floor_eq_iff (by norm_num)]
        norm_num]
    decide

/-- C9 (witness): the shape theorem applied at `65.5` seconds. -/
theorem formatTime_clock_shape_witness :
    0 ≤ (131 : ℚ) / 2 ∧ ClockFormat ((131 : ℚ) / 2) :=
  ⟨by norm_num, formatTime_clock_shape.1 ((131 : ℚ) / 2) (by norm_num)⟩
